import Mathlib

/-!
Verification of the pynini_rewrite rewrite engine.

The repository is a thin orchestration layer (rewrite.py, rule_cascade.py)
over the external pynini WFST library.  Following the spec's §6, the
external transducer primitives (compose, project, rmepsilon, determinize,
shortestpath, path enumeration, FAR lookup, arcsort) are modelled as an
abstract interface `PyniniEnv` over an opaque FST type `F` and weight type
`W`; the repository's own functions are translated faithfully over that
interface.  Exceptions become an explicit error type carrying the exact
message strings the Python code raises; the `logging.warning` call in
`lattice_to_dfa` becomes a returned Boolean diagnostic flag.
-/

/-- Errors raised by the two modules.  `rewriteError` models
`rewrite.Error`, `cascadeError` models `rule_cascade.Error`; each carries
the formatted message string the Python code passes to the constructor. -/
inductive PyError where
  | rewriteError (msg : String)
  | cascadeError (msg : String)
deriving DecidableEq, Repr

/-- A duck-typed "string or FST" input, as accepted by `pynini.compose`
and hence by `rewrite_lattice` (spec §9: tagged variant resolved at the
entry of lattice construction). -/
inductive Inp (F : Type) where
  | str (s : String)
  | fst (f : F)
deriving DecidableEq, Repr

/-- The external pynini interface consumed by the repository (spec §6).
`F` is the opaque FST/lattice type, `W` the weight type.  Each field is
one operation or method the repository's code invokes on the library:
`compose i r flt` is `pynini.compose(i, r, compose_filter=flt)`;
`start f` is `f.start()` with `none` for `pynini.NO_STATE_ID`;
`projectOutput f` is `f.project(project_output=True)`;
`paths f itt ott` enumerates `(istring, ostring, weight)` triples of
`f.paths(...)` with the token-type arguments the code passed (`none` when
the code left the pynini default);
`weightStr w` is `str(w)` as used by `format`; `weightFloat w` is the
`float(w)` sort key (modelled as an integer-valued key);
`matchesOp l o flt` is `pynini.matches(l, o, compose_filter=flt)`
(renamed because `matches` is reserved in Lean);
`arcsort f st` is `f.arcsort(sort_type=st)`. -/
structure PyniniEnv (F : Type) (W : Type) where
  compose : Inp F → F → String → F
  start : F → Option Nat
  projectOutput : F → F
  rmepsilon : F → F
  numStates : F → Nat
  weightTypeOf : F → String
  weightOne : String → W
  weightZero : String → W
  determinize : F → Nat → W → F
  shortestpath : F → Nat → Bool → F
  stringify : F → String → String
  paths : F → Option String → Option String → List (String × String × W)
  weightStr : W → String
  weightFloat : W → Int
  matchesOp : F → Inp F → String → Bool
  arcsort : F → String → F

/-- The message `m` contains `s` as a contiguous substring; used to state
that an error message names a given string. -/
def strMentions (m s : String) : Prop :=
  ∃ p q : List Char, m.data = p ++ s.data ++ q

namespace PyRewrite

variable {F W : Type}

/-- Translation of `rewrite._check_nonempty_and_cleanup`: raise
`Error("Composition failure")` when the lattice has no start state,
otherwise project onto the output side and remove epsilons. -/
def check_nonempty_and_cleanup (env : PyniniEnv F W) (lattice : F) :
    Except PyError F :=
  if (env.start lattice).isNone then
    .error (PyError.rewriteError "Composition failure")
  else
    .ok (env.rmepsilon (env.projectOutput lattice))

/-- Translation of `rewrite.rewrite_lattice`: compose the input with the
rule under the alt_sequence filter, then validate and clean up. -/
def rewrite_lattice (env : PyniniEnv F W) (string : Inp F) (rule : F) :
    Except PyError F :=
  check_nonempty_and_cleanup env (env.compose string rule "alt_sequence")

/-- Translation of `rewrite.lattice_to_dfa`.  The second component of the
result is the diagnostic flag: `true` exactly when the code would execute
the `logging.warning` call (result state count equals the threshold). -/
def lattice_to_dfa (env : PyniniEnv F W) (lattice : F) (optimal_only : Bool)
    (state_multiplier : Nat) : F × Bool :=
  let weight_type := env.weightTypeOf lattice
  let weight_threshold :=
    if optimal_only then env.weightOne weight_type
    else env.weightZero weight_type
  let state_threshold := 256 + state_multiplier * env.numStates lattice
  let lattice2 := env.determinize lattice state_threshold weight_threshold
  (lattice2, env.numStates lattice2 == state_threshold)

/-- Translation of `rewrite.lattice_to_shortest`:
`pynini.shortestpath(lattice, nshortest=nshortest, unique=True)`. -/
def lattice_to_shortest (env : PyniniEnv F W) (lattice : F)
    (nshortest : Nat) : F :=
  env.shortestpath lattice nshortest true

/-- Translation of `rewrite.lattice_to_top_string`:
`pynini.shortestpath(lattice).stringify(token_type)` (pynini defaults:
one path, unique=False). -/
def lattice_to_top_string (env : PyniniEnv F W) (lattice : F)
    (token_type : String) : String :=
  env.stringify (env.shortestpath lattice 1 false) token_type

/-- Translation of `rewrite.lattice_to_one_top_string`: take the first
path of the iterator as the candidate; if the iterator is not done after
advancing, raise `Error` with the formatted message naming the candidate,
the second path's output string and the second path's weight.  The empty
iterator case (excluded by the documented precondition that the lattice
is a pruned non-empty DFA) is rendered as returning the empty string. -/
def lattice_to_one_top_string (env : PyniniEnv F W) (lattice : F)
    (token_type : String) : Except PyError String :=
  match env.paths lattice (some token_type) none with
  | [] => .ok ""
  | p :: rest =>
    match rest with
    | [] => .ok p.2.1
    | q :: _ =>
      .error (PyError.rewriteError
        ("Multiple top rewrites found: " ++ p.2.1 ++ " and " ++ q.2.1 ++
          " (weight: " ++ env.weightStr q.2.2 ++ ")"))

/-- Translation of `rewrite.lattice_to_strings`:
`tuple(lattice.paths(token_type).ostrings())`. -/
def lattice_to_strings (env : PyniniEnv F W) (lattice : F)
    (token_type : String) : List String :=
  (env.paths lattice (some token_type) none).map (fun p => p.2.1)

end PyRewrite

/-- Helper for the translation of Python `str.split()`: scan the
character list, accumulating the current token in reverse, splitting on
runs of whitespace and discarding empty tokens. -/
def wsSplitGo : List Char → List Char → List (List Char)
  | cur, [] => if cur.isEmpty then [] else [cur.reverse]
  | cur, c :: cs =>
    if c.isWhitespace then
      if cur.isEmpty then wsSplitGo [] cs
      else cur.reverse :: wsSplitGo [] cs
    else wsSplitGo (c :: cur) cs

/-- Translation of Python `s.split()` with no arguments: split on runs of
whitespace, with no empty tokens. -/
def pySplit (s : String) : List String :=
  (wsSplitGo [] s.data).map (fun cs => String.mk cs)

/-- Comparison by an integer-valued key; the order under which Python's
`sorted(xs, key=k)` sorts. -/
def wle {α : Type} (key : α → Int) (a b : α) : Prop := key a ≤ key b

instance {α : Type} (key : α → Int) : DecidableRel (wle key) :=
  fun a b => Int.decLe (key a) (key b)

instance {α : Type} (key : α → Int) : IsTotal α (wle key) :=
  ⟨fun a b => Int.le_total (key a) (key b)⟩

instance {α : Type} (key : α → Int) : IsTrans α (wle key) :=
  ⟨fun _ _ _ h h2 => Int.le_trans h h2⟩

namespace PyRewrite

variable {F W : Type}

/-- The `float(path[2])` sort key used by `lattice_to_strings_and_weights`. -/
def pathKey (env : PyniniEnv F W) (p : String × String × W) : Int :=
  env.weightFloat p.2.2

/-- Translation of `rewrite.lattice_to_strings_and_weights`: validate and
clean up the raw lattice, stably sort its paths ascending by the numeric
weight key (Python's `sorted` is a stable sort; `List.insertionSort` with
a non-strict comparison is the same stable sort), and return, for each
path, only the output string split on whitespace.  The
`input_token_type` parameter is accepted and unused, as in the source. -/
def lattice_to_strings_and_weights (env : PyniniEnv F W) (lattice : F)
    (input_token_type output_token_type : String) :
    Except PyError (List (List String)) :=
  match check_nonempty_and_cleanup env lattice with
  | .error e => .error e
  | .ok lat =>
    let sorted_arpa :=
      List.insertionSort (wle (pathKey env))
        (env.paths lat none (some output_token_type))
    .ok (sorted_arpa.map (fun p => pySplit p.2.1))

/-- Translation of `rewrite.top_rewrite`. -/
def top_rewrite (env : PyniniEnv F W) (string : Inp F) (rule : F)
    (token_type : String) : Except PyError String := do
  let lattice ← rewrite_lattice env string rule
  return lattice_to_top_string env lattice token_type

/-- Translation of `rewrite.one_top_rewrite`. -/
def one_top_rewrite (env : PyniniEnv F W) (string : Inp F) (rule : F)
    (token_type : String) (state_multiplier : Nat) :
    Except PyError String := do
  let lattice ← rewrite_lattice env string rule
  let lattice := (lattice_to_dfa env lattice true state_multiplier).1
  lattice_to_one_top_string env lattice token_type

/-- Translation of `rewrite.rewrites`. -/
def rewrites (env : PyniniEnv F W) (string : Inp F) (rule : F)
    (token_type : String) (state_multiplier : Nat) :
    Except PyError (List String) := do
  let lattice ← rewrite_lattice env string rule
  let lattice := (lattice_to_dfa env lattice false state_multiplier).1
  return lattice_to_strings env lattice token_type

/-- Translation of `rewrite.top_rewrites`. -/
def top_rewrites (env : PyniniEnv F W) (string : Inp F) (rule : F)
    (nshortest : Nat) (token_type : String) :
    Except PyError (List String) := do
  let lattice ← rewrite_lattice env string rule
  let lattice := lattice_to_shortest env lattice nshortest
  return lattice_to_strings env lattice token_type

/-- Translation of `rewrite.optimal_rewrites`. -/
def optimal_rewrites (env : PyniniEnv F W) (string : Inp F) (rule : F)
    (token_type : String) (state_multiplier : Nat) :
    Except PyError (List String) := do
  let lattice ← rewrite_lattice env string rule
  let lattice := (lattice_to_dfa env lattice true state_multiplier).1
  return lattice_to_strings env lattice token_type

/-- Translation of `rewrite.matches` (renamed: `matches` is reserved in
Lean): build the output lattice for the input, then ask the external
`pynini.matches` with the alt_sequence composition filter. -/
def matchesRule (env : PyniniEnv F W) (istring ostring : Inp F)
    (rule : F) : Except PyError Bool := do
  let lattice ← rewrite_lattice env istring rule
  return env.matchesOp lattice ostring "alt_sequence"

end PyRewrite

namespace PyCascade

variable {F W : Type}

/-- The state of `rule_cascade.RuleCascade`: the FAR archive it was
constructed with (modelled as a name-to-FST association list) and the
currently configured rule sequence (`self.rules`, initially empty). -/
structure RuleCascade (F : Type) where
  far : List (String × F)
  rules : List F
deriving DecidableEq, Repr

/-- Translation of `RuleCascade._validate_and_arcsort_rules` (the
generator, as fully driven by `tuple(...)`): for each name in order,
look it up in the FAR; yield the found rule arc-sorted by input label, or
raise `Error("Cannot find rule: <name>")` at the first missing name,
never examining the remaining names. -/
def validate_and_arcsort_rules (env : PyniniEnv F W)
    (far : List (String × F)) : List String → Except PyError (List F)
  | [] => .ok []
  | name :: rest =>
    match List.lookup name far with
    | some f =>
      Except.map (fun tl => env.arcsort f "ilabel" :: tl)
        (validate_and_arcsort_rules env far rest)
    | none => .error (PyError.cascadeError ("Cannot find rule: " ++ name))

/-- Translation of `RuleCascade.set_rules`.  In Python,
`self.rules = tuple(self._validate_and_arcsort_rules(rules))` evaluates
the right-hand side in full before the attribute assignment, so an
exception from the generator leaves `self.rules` untouched; the pair
returned here is (raised error if any, cascade state afterwards). -/
def set_rules (env : PyniniEnv F W) (c : RuleCascade F)
    (rules : List String) : Option PyError × RuleCascade F :=
  match validate_and_arcsort_rules env c.far rules with
  | .ok rs => (none, { far := c.far, rules := rs })
  | .error e => (some e, c)

/-- The loop body of `RuleCascade._rewrite_lattice` after the first rule:
each stage's output lattice is fed back as the next stage's input FST. -/
def thread (env : PyniniEnv F W) : List F → F → Except PyError F
  | [], lat => .ok lat
  | r :: rs, lat => do
    let lat2 ← PyRewrite.rewrite_lattice env (Inp.fst lat) r
    thread env rs lat2

/-- Translation of `RuleCascade._rewrite_lattice`: raise
`Error("No rules requested")` when the configured sequence is empty,
otherwise thread the lattice through each rule in order via the
single-rule `rewrite.rewrite_lattice`. -/
def rewrite_lattice (env : PyniniEnv F W) (c : RuleCascade F)
    (istring : Inp F) : Except PyError F :=
  match c.rules with
  | [] => .error (PyError.cascadeError "No rules requested")
  | r :: rs => do
    let lat ← PyRewrite.rewrite_lattice env istring r
    thread env rs lat

/-- Translation of `RuleCascade.top_rewrite`. -/
def top_rewrite (env : PyniniEnv F W) (c : RuleCascade F) (istring : Inp F)
    (token_type : String) : Except PyError String := do
  let lattice ← rewrite_lattice env c istring
  return PyRewrite.lattice_to_top_string env lattice token_type

/-- Translation of `RuleCascade.one_top_rewrite`. -/
def one_top_rewrite (env : PyniniEnv F W) (c : RuleCascade F)
    (istring : Inp F) (token_type : String) (state_multiplier : Nat) :
    Except PyError String := do
  let lattice ← rewrite_lattice env c istring
  let lattice := (PyRewrite.lattice_to_dfa env lattice true state_multiplier).1
  PyRewrite.lattice_to_one_top_string env lattice token_type

/-- Translation of `RuleCascade.rewrites`. -/
def rewrites (env : PyniniEnv F W) (c : RuleCascade F) (istring : Inp F)
    (token_type : String) (state_multiplier : Nat) :
    Except PyError (List String) := do
  let lattice ← rewrite_lattice env c istring
  let lattice := (PyRewrite.lattice_to_dfa env lattice false state_multiplier).1
  return PyRewrite.lattice_to_strings env lattice token_type

/-- Translation of `RuleCascade.top_rewrites`. -/
def top_rewrites (env : PyniniEnv F W) (c : RuleCascade F) (istring : Inp F)
    (nshortest : Nat) (token_type : String) :
    Except PyError (List String) := do
  let lattice ← rewrite_lattice env c istring
  let lattice := PyRewrite.lattice_to_shortest env lattice nshortest
  return PyRewrite.lattice_to_strings env lattice token_type

/-- Translation of `RuleCascade.optimal_rewrites`. -/
def optimal_rewrites (env : PyniniEnv F W) (c : RuleCascade F)
    (istring : Inp F) (token_type : String) (state_multiplier : Nat) :
    Except PyError (List String) := do
  let lattice ← rewrite_lattice env c istring
  let lattice := (PyRewrite.lattice_to_dfa env lattice true state_multiplier).1
  return PyRewrite.lattice_to_strings env lattice token_type

/-- Translation of `RuleCascade.matches` (renamed: `matches` is reserved
in Lean). -/
def matchesCascade (env : PyniniEnv F W) (c : RuleCascade F)
    (istring ostring : Inp F) : Except PyError Bool := do
  let lattice ← rewrite_lattice env c istring
  return env.matchesOp lattice ostring "alt_sequence"

end PyCascade

/-!
A small concrete instantiation of the external interface, used to
evaluate the theorems on explicit inputs.  A `CFst` records the
observations the repository's code can make of a pynini FST object
(start state, state count, weight type) together with its path list; the
transform operations of the concrete environment are chosen freely per
witness, as the theorems quantify over the environment.
-/

/-- A concrete FST for witnesses: start state, state count, weight-type
name, and the `(istring, ostring, weight)` path list its iterator
yields. -/
structure CFst where
  cstart : Option Nat
  cnum : Nat
  cwt : String
  cpaths : List (String × String × Int)
deriving DecidableEq, Repr

/-- A concrete environment over `CFst` with integer weights, parametrized
by the composition operation; projection, epsilon removal, determinization
and arc-sorting are taken as identities here. -/
def mkEnv (compose : Inp CFst → CFst → String → CFst) :
    PyniniEnv CFst Int where
  compose := compose
  start := fun f => f.cstart
  projectOutput := fun f => f
  rmepsilon := fun f => f
  numStates := fun f => f.cnum
  weightTypeOf := fun f => f.cwt
  weightOne := fun _ => 1
  weightZero := fun _ => 0
  determinize := fun f _ _ => f
  shortestpath := fun f _ _ => f
  stringify := fun f _ => ((f.cpaths.headD ("", "", 0)).2.1)
  paths := fun f _ _ => f.cpaths
  weightStr := fun w => toString w
  weightFloat := fun w => w
  matchesOp := fun f o _ =>
    match o with
    | Inp.str s => (f.cpaths.map (fun p => p.2.1)).contains s
    | Inp.fst _ => false
  arcsort := fun f _ => f

/-- An FST with no valid start state (a failed composition). -/
def emptyFst : CFst :=
  { cstart := none, cnum := 0, cwt := "tropical", cpaths := [] }

/-- A lattice whose iterator yields the single path a -> x (weight 1). -/
def latSingle : CFst :=
  { cstart := some 0, cnum := 2, cwt := "tropical",
    cpaths := [("a", "x", 1)] }

/-- A lattice with two tied paths a -> x and a -> y, both of weight 1. -/
def latTie : CFst :=
  { cstart := some 0, cnum := 2, cwt := "tropical",
    cpaths := [("a", "x", 1), ("a", "y", 1)] }

/-- A lattice mapping a -> p with weight 0. -/
def latP : CFst :=
  { cstart := some 0, cnum := 2, cwt := "tropical",
    cpaths := [("a", "p", 0)] }

/-- A lattice with one path whose output is the two tokens p q, weight 3. -/
def latA : CFst :=
  { cstart := some 0, cnum := 3, cwt := "tropical",
    cpaths := [("a", "p q", 3)] }

/-- Like `latA` but with path weight 7 instead of 3. -/
def latB : CFst :=
  { cstart := some 0, cnum := 3, cwt := "tropical",
    cpaths := [("a", "p q", 7)] }

/-- Environment whose composition always fails (no start state). -/
def envFail : PyniniEnv CFst Int := mkEnv (fun _ _ _ => emptyFst)

/-- Environment used where only the path iterator matters; composition is
irrelevant to those witnesses. -/
def envPaths : PyniniEnv CFst Int := mkEnv (fun _ _ _ => emptyFst)

/-- Environment whose composition always yields the lattice a -> p. -/
def envOk : PyniniEnv CFst Int := mkEnv (fun _ _ _ => latP)

/-- The containment decision implemented by `envOk`'s external matcher:
whether the expected output string occurs among the lattice's output
strings. -/
def cmatchFn (l : CFst) (o : Inp CFst) : Bool :=
  envOk.matchesOp l o "alt_sequence"

/-- A concrete two-rule archive for the cascade witnesses. -/
def farEx : List (String × CFst) := [("a", latSingle), ("b", latTie)]

/-- A cascade over `farEx` with no rules configured yet. -/
def cascEx : PyCascade.RuleCascade CFst := { far := farEx, rules := [] }

/-!
Helper lemmas.
-/

theorem strMentions_char_mem (m s : String) (h : strMentions m s) :
    ∀ c ∈ s.data, c ∈ m.data := by
  obtain ⟨p, q, hm⟩ := h
  intro c hc
  rw [hm]
  simp only [List.mem_append]
  exact Or.inl (Or.inr hc)

theorem rewrite_lattice_error_msg {F W : Type} (env : PyniniEnv F W)
    (string : Inp F) (rule : F) (e : PyError)
    (h : PyRewrite.rewrite_lattice env string rule = .error e) :
    e = PyError.rewriteError "Composition failure" := by
  unfold PyRewrite.rewrite_lattice PyRewrite.check_nonempty_and_cleanup at h
  by_cases hs : (env.start (env.compose string rule "alt_sequence")).isNone
  · rw [if_pos hs] at h
    exact ((Except.error.injEq _ _).mp h).symm
  · rw [if_neg hs] at h
    exact absurd h (by simp)

/-!
Claim C1.  The spec says `rewrite_lattice` fails with `CompositionFailure`
"naming the offending input"; the code raises the fixed message
"Composition failure", which names no input, so that part is refuted and
the remainder (failure exactly on a missing start state, checked before
projection and epsilon removal, otherwise output-projected epsilon-free
result) is proved.
-/

/-- C1 (counterexample): on input "xyz" whose composition with the rule
has no valid start state, `rewrite_lattice` raises an error whose message
is the fixed string "Composition failure", which does not name the
offending input "xyz". -/
theorem claim_C1_counterexample :
    PyRewrite.rewrite_lattice envFail (Inp.str "xyz") emptyFst
      = .error (PyError.rewriteError "Composition failure")
    ∧ ¬ strMentions "Composition failure" "xyz" := by
  constructor
  · rfl
  · intro h
    have hx := strMentions_char_mem _ _ h 'x' (by decide)
    revert hx
    decide

/-- C1 (amended): `rewrite_lattice` raises `CompositionFailure` (the
fixed message "Composition failure", which does not name the input)
exactly when the composition of the input with the rule under the
alt_sequence filter has no valid start state; the check precedes any
projection or epsilon removal (on failure, the outcome is the same for
every choice of projection and epsilon-removal operations); otherwise it
returns the composition projected onto its output side with epsilon
transitions removed. -/
theorem claim_C1 {F W : Type} (env : PyniniEnv F W) (string : Inp F)
    (rule : F) :
    (PyRewrite.rewrite_lattice env string rule
        = .error (PyError.rewriteError "Composition failure")
      ↔ env.start (env.compose string rule "alt_sequence") = none)
    ∧ (∀ s, env.start (env.compose string rule "alt_sequence") = some s →
        PyRewrite.rewrite_lattice env string rule
          = .ok (env.rmepsilon (env.projectOutput
              (env.compose string rule "alt_sequence"))))
    ∧ (env.start (env.compose string rule "alt_sequence") = none →
        ∀ pj rm : F → F,
          PyRewrite.rewrite_lattice
              { env with projectOutput := pj, rmepsilon := rm } string rule
            = .error (PyError.rewriteError "Composition failure")) := by
  cases h : env.start (env.compose string rule "alt_sequence") with
  | none =>
    refine ⟨?_, ?_, ?_⟩
    · simp [PyRewrite.rewrite_lattice, PyRewrite.check_nonempty_and_cleanup, h]
    · intro s hs
      exact absurd hs (by simp)
    · intro _ pj rm
      simp [PyRewrite.rewrite_lattice, PyRewrite.check_nonempty_and_cleanup, h]
  | some s =>
    refine ⟨?_, ?_, ?_⟩
    · simp [PyRewrite.rewrite_lattice, PyRewrite.check_nonempty_and_cleanup, h]
    · intro s2 _
      simp [PyRewrite.rewrite_lattice, PyRewrite.check_nonempty_and_cleanup, h]
    · intro hn
      exact absurd hn (by simp)

/-- C1 (witness): the amended theorem applied at a concrete failing
composition. -/
theorem claim_C1_witness :
    PyRewrite.rewrite_lattice envFail (Inp.str "abc") emptyFst
      = .error (PyError.rewriteError "Composition failure") :=
  (claim_C1 envFail (Inp.str "abc") emptyFst).1.mpr rfl

/-- C2 (confirmed): on a lattice whose path iterator yields exactly one
path (a pruned, deterministic, optimal-only lattice whose optimal-weight
class contains exactly one string), `lattice_to_one_top_string` returns
that path's output string; whenever a second path exists it raises the
tie error, whose message names the first candidate string, the second
competing string and the second path's weight — it never silently picks
one of several tied strings. -/
theorem claim_C2 {F W : Type} (env : PyniniEnv F W) (lattice : F)
    (token_type : String) :
    (∀ p, env.paths lattice (some token_type) none = [p] →
      PyRewrite.lattice_to_one_top_string env lattice token_type
        = .ok p.2.1)
    ∧ (∀ p q rest, env.paths lattice (some token_type) none = p :: q :: rest →
        ∃ m, PyRewrite.lattice_to_one_top_string env lattice token_type
            = .error (PyError.rewriteError m)
          ∧ strMentions m p.2.1 ∧ strMentions m q.2.1
          ∧ strMentions m (env.weightStr q.2.2)) := by
  constructor
  · intro p hp
    simp [PyRewrite.lattice_to_one_top_string, hp]
  · intro p q rest hp
    refine ⟨"Multiple top rewrites found: " ++ p.2.1 ++ " and " ++ q.2.1 ++
      " (weight: " ++ env.weightStr q.2.2 ++ ")", ?_, ?_, ?_, ?_⟩
    · simp [PyRewrite.lattice_to_one_top_string, hp]
    · exact ⟨"Multiple top rewrites found: ".data,
        (" and " ++ q.2.1 ++ " (weight: " ++ env.weightStr q.2.2 ++ ")").data,
        by simp [String.data_append]⟩
    · exact ⟨("Multiple top rewrites found: " ++ p.2.1 ++ " and ").data,
        (" (weight: " ++ env.weightStr q.2.2 ++ ")").data,
        by simp [String.data_append]⟩
    · exact ⟨("Multiple top rewrites found: " ++ p.2.1 ++ " and " ++ q.2.1 ++
        " (weight: ").data, ")".data, by simp [String.data_append]⟩

/-- C2 (witness): the theorem applied to a one-path lattice (returns "x")
and to a two-path tie (raises, and the message mentions "x", "y" and the
second path's weight). -/
theorem claim_C2_witness :
    PyRewrite.lattice_to_one_top_string envPaths latSingle "byte" = .ok "x"
    ∧ ∃ m, PyRewrite.lattice_to_one_top_string envPaths latTie "byte"
          = .error (PyError.rewriteError m)
        ∧ strMentions m "x" ∧ strMentions m "y"
        ∧ strMentions m (envPaths.weightStr 1) := by
  constructor
  · exact (claim_C2 envPaths latSingle "byte").1 ("a", "x", 1) rfl
  · exact (claim_C2 envPaths latTie "byte").2 ("a", "x", 1) ("a", "y", 1) [] rfl

/-- C3 (confirmed): for any fixed input and any extraction mode (any
function of the final lattice), threading the single-rule
`rewrite_lattice` three times manually yields the same result — and hence
the same output-string set — as a cascade configured with those three
rules, including agreement on the error when some stage's composition
fails. -/
theorem claim_C3 {F W : Type} {A : Type} (env : PyniniEnv F W)
    (far : List (String × F)) (r1 r2 r3 : F) (istring : Inp F)
    (extract : F → A) :
    Except.map extract
        (PyCascade.rewrite_lattice env { far := far, rules := [r1, r2, r3] }
          istring)
      = Except.map extract
        (PyRewrite.rewrite_lattice env istring r1 >>= fun l1 =>
          PyRewrite.rewrite_lattice env (Inp.fst l1) r2 >>= fun l2 =>
            PyRewrite.rewrite_lattice env (Inp.fst l2) r3) := by
  simp only [PyCascade.rewrite_lattice]
  cases h1 : PyRewrite.rewrite_lattice env istring r1 with
  | error e => rfl
  | ok l1 =>
    show Except.map extract (PyCascade.thread env [r2, r3] l1)
        = Except.map extract
          (PyRewrite.rewrite_lattice env (Inp.fst l1) r2 >>= fun l2 =>
            PyRewrite.rewrite_lattice env (Inp.fst l2) r3)
    simp only [PyCascade.thread]
    cases h2 : PyRewrite.rewrite_lattice env (Inp.fst l1) r2 with
    | error e => rfl
    | ok l2 =>
      show Except.map extract (PyCascade.thread env [r3] l2)
          = Except.map extract (PyRewrite.rewrite_lattice env (Inp.fst l2) r3)
      simp only [PyCascade.thread]
      cases h3 : PyRewrite.rewrite_lattice env (Inp.fst l2) r3 with
      | error e => rfl
      | ok l3 => rfl

/-- C4 (confirmed): `lattice_to_dfa` passes the semiring's multiplicative
identity One as the determinization weight threshold when `optimal_only`
is true (the external determinize then keeps only weight-optimal paths,
spec section 6), and the additive identity Zero when it is false (no
pruning; all paths retained and merely determinized). -/
theorem claim_C4 {F W : Type} (env : PyniniEnv F W) (lattice : F)
    (state_multiplier : Nat) :
    (PyRewrite.lattice_to_dfa env lattice true state_multiplier).1
        = env.determinize lattice
            (256 + state_multiplier * env.numStates lattice)
            (env.weightOne (env.weightTypeOf lattice))
    ∧ (PyRewrite.lattice_to_dfa env lattice false state_multiplier).1
        = env.determinize lattice
            (256 + state_multiplier * env.numStates lattice)
            (env.weightZero (env.weightTypeOf lattice)) :=
  ⟨rfl, rfl⟩

/-- C5 (confirmed): `lattice_to_dfa` determinizes with the hard state cap
256 + state_multiplier * num_states; the warning flag (the translation of
the `logging.warning` call) is set exactly when the result's state count
equals that cap; and in every case the (possibly truncated) determinized
result itself is returned — the cap condition never produces an error. -/
theorem claim_C5 {F W : Type} (env : PyniniEnv F W) (lattice : F)
    (optimal_only : Bool) (state_multiplier : Nat) :
    ∃ d : F,
      PyRewrite.lattice_to_dfa env lattice optimal_only state_multiplier
          = (d, env.numStates d
              == 256 + state_multiplier * env.numStates lattice)
      ∧ d = env.determinize lattice
          (256 + state_multiplier * env.numStates lattice)
          (if optimal_only then env.weightOne (env.weightTypeOf lattice)
            else env.weightZero (env.weightTypeOf lattice))
      ∧ ((PyRewrite.lattice_to_dfa env lattice optimal_only
              state_multiplier).2 = true
          ↔ env.numStates (PyRewrite.lattice_to_dfa env lattice optimal_only
              state_multiplier).1
            = 256 + state_multiplier * env.numStates lattice) := by
  refine ⟨env.determinize lattice
      (256 + state_multiplier * env.numStates lattice)
      (if optimal_only then env.weightOne (env.weightTypeOf lattice)
        else env.weightZero (env.weightTypeOf lattice)), ?_, rfl, ?_⟩
  · cases optimal_only <;> rfl
  · cases optimal_only <;>
      simp [PyRewrite.lattice_to_dfa, beq_iff_eq]

/-- C5 (witness): the theorem instantiated at a concrete lattice and
environment. -/
theorem claim_C5_witness :
    ∃ d : CFst,
      PyRewrite.lattice_to_dfa envPaths latSingle true 4
          = (d, envPaths.numStates d
              == 256 + 4 * envPaths.numStates latSingle)
      ∧ d = envPaths.determinize latSingle
          (256 + 4 * envPaths.numStates latSingle)
          (if true then envPaths.weightOne (envPaths.weightTypeOf latSingle)
            else envPaths.weightZero (envPaths.weightTypeOf latSingle))
      ∧ ((PyRewrite.lattice_to_dfa envPaths latSingle true 4).2 = true
          ↔ envPaths.numStates
              (PyRewrite.lattice_to_dfa envPaths latSingle true 4).1
            = 256 + 4 * envPaths.numStates latSingle) :=
  claim_C5 envPaths latSingle true 4

/-- Helper: when every name is found, the validating generator yields the
arc-sorted rules in order. -/
theorem validate_ok {F W : Type} (env : PyniniEnv F W)
    (far : List (String × F)) (g : String → F) :
    ∀ names : List String, (∀ n ∈ names, List.lookup n far = some (g n)) →
      PyCascade.validate_and_arcsort_rules env far names
        = .ok (names.map (fun n => env.arcsort (g n) "ilabel")) := by
  intro names
  induction names with
  | nil => intro _; rfl
  | cons name rest ih =>
    intro hall
    have hn : List.lookup name far = some (g name) :=
      hall name (List.mem_cons_self name rest)
    have hrest := ih (fun n hn2 => hall n (List.mem_cons_of_mem name hn2))
    simp [PyCascade.validate_and_arcsort_rules, hn, hrest, Except.map]

/-- Helper: the validating generator raises at the first missing name,
whatever follows it. -/
theorem validate_err {F W : Type} (env : PyniniEnv F W)
    (far : List (String × F)) (name : String) (post : List String)
    (hname : List.lookup name far = none) :
    ∀ pre : List String, (∀ m ∈ pre, (List.lookup m far).isSome) →
      PyCascade.validate_and_arcsort_rules env far (pre ++ name :: post)
        = .error (PyError.cascadeError ("Cannot find rule: " ++ name)) := by
  intro pre
  induction pre with
  | nil =>
    intro _
    simp [PyCascade.validate_and_arcsort_rules, hname]
  | cons m rest ih =>
    intro hall
    have hm : (List.lookup m far).isSome :=
      hall m (List.mem_cons_self m rest)
    obtain ⟨f, hf⟩ := Option.isSome_iff_exists.mp hm
    have hrest := ih (fun n hn2 => hall n (List.mem_cons_of_mem m hn2))
    simp [PyCascade.validate_and_arcsort_rules, hf, hrest, Except.map]

/-- C6 (confirmed): `set_rules` looks each name up in the archive in
order; at the first missing name it raises `RuleNotFound` naming exactly
that rule, with the remaining names (`post`) unconstrained and
unexamined; when every name is found, each rule is retrieved, arc-sorted
by input label ("ilabel") and stored, and the stored sequence is
determined by the names alone — fully replacing whatever rule sequence
was configured before. -/
theorem claim_C6 {F W : Type} (env : PyniniEnv F W)
    (c : PyCascade.RuleCascade F) (names : List String) :
    (∀ g : String → F, (∀ n ∈ names, List.lookup n c.far = some (g n)) →
      PyCascade.set_rules env c names
        = (none,
           { far := c.far,
             rules := names.map (fun n => env.arcsort (g n) "ilabel") }))
    ∧ (∀ pre name post, names = pre ++ name :: post →
        (∀ m ∈ pre, (List.lookup m c.far).isSome) →
        List.lookup name c.far = none →
        PyCascade.set_rules env c names
          = (some (PyError.cascadeError ("Cannot find rule: " ++ name)), c)) := by
  constructor
  · intro g hall
    have h := validate_ok env c.far g names hall
    simp [PyCascade.set_rules, h]
  · intro pre name post hsplit hpre hname
    have h := validate_err env c.far name post hname pre hpre
    rw [hsplit]
    simp [PyCascade.set_rules, h]

/-- C6 (witness): a successful reconfiguration storing both (arc-sorted)
rules, and a failing one naming exactly the first missing rule "zz" while
a later valid name "b" follows it. -/
theorem claim_C6_witness :
    PyCascade.set_rules envPaths cascEx ["a", "b"]
      = (none,
         { far := farEx,
           rules := ["a", "b"].map
             (fun n => envPaths.arcsort ((List.lookup n farEx).getD emptyFst)
               "ilabel") })
    ∧ PyCascade.set_rules envPaths cascEx ["a", "zz", "b"]
      = (some (PyError.cascadeError ("Cannot find rule: " ++ "zz")), cascEx) := by
  constructor
  · exact (claim_C6 envPaths cascEx ["a", "b"]).1
      (fun n => (List.lookup n farEx).getD emptyFst) (by decide)
  · exact (claim_C6 envPaths cascEx ["a", "zz", "b"]).2 ["a"] "zz" ["b"]
      rfl (by decide) (by decide)

/-- C10 (confirmed): when `set_rules` raises, the cascade's rule sequence
is exactly what it was before the call — in Python the right-hand side
`tuple(...)` is materialized in full before the assignment to
`self.rules`, so the raise aborts the statement with the attribute
untouched. -/
theorem claim_C10 {F W : Type} (env : PyniniEnv F W)
    (c : PyCascade.RuleCascade F) (names : List String) (e : PyError)
    (h : (PyCascade.set_rules env c names).1 = some e) :
    (PyCascade.set_rules env c names).2 = c := by
  unfold PyCascade.set_rules at h ⊢
  cases hv : PyCascade.validate_and_arcsort_rules env c.far names with
  | ok rs =>
    rw [hv] at h
    exact absurd h (by simp)
  | error e2 => rfl

/-- C10 (witness): a failed reconfiguration (missing rule "zz") leaves
the previously configured cascade untouched. -/
theorem claim_C10_witness :
    (PyCascade.set_rules envPaths cascEx ["zz"]).2 = cascEx :=
  claim_C10 envPaths cascEx ["zz"]
    (PyError.cascadeError ("Cannot find rule: " ++ "zz")) rfl

/-- Helper: the threading loop can only raise the composition-failure
error of the single-rule `rewrite_lattice`. -/
theorem thread_error_msg {F W : Type} (env : PyniniEnv F W) :
    ∀ (rs : List F) (lat : F) (e : PyError),
      PyCascade.thread env rs lat = .error e →
        e = PyError.rewriteError "Composition failure" := by
  intro rs
  induction rs with
  | nil =>
    intro lat e h
    exact absurd h (by simp [PyCascade.thread])
  | cons r rs2 ih =>
    intro lat e h
    simp only [PyCascade.thread] at h
    cases hrl : PyRewrite.rewrite_lattice env (Inp.fst lat) r with
    | error e2 =>
      rw [hrl] at h
      have h2 : (Except.error e2 : Except PyError F) = .error e := h
      have he2 : e2 = e := (Except.error.injEq _ _).mp h2
      rw [← he2]
      exact rewrite_lattice_error_msg env (Inp.fst lat) r e2 hrl
    | ok lat2 =>
      rw [hrl] at h
      have h2 : PyCascade.thread env rs2 lat2 = .error e := h
      exact ih lat2 e h2

/-- Helper: with a non-empty rule sequence, `_rewrite_lattice` can only
raise the composition-failure error, never the no-rules error. -/
theorem cascade_rewrite_lattice_error_msg {F W : Type}
    (env : PyniniEnv F W) (c : PyCascade.RuleCascade F) (i : Inp F)
    (e : PyError) (hne : c.rules ≠ [])
    (h : PyCascade.rewrite_lattice env c i = .error e) :
    e = PyError.rewriteError "Composition failure" := by
  unfold PyCascade.rewrite_lattice at h
  cases hc : c.rules with
  | nil => exact absurd hc hne
  | cons r rs =>
    rw [hc] at h
    have hb : (PyRewrite.rewrite_lattice env i r >>= fun lat =>
        PyCascade.thread env rs lat) = Except.error e := h
    cases hrl : PyRewrite.rewrite_lattice env i r with
    | error e2 =>
      rw [hrl] at hb
      have h2 : (Except.error e2 : Except PyError F) = .error e := hb
      have he2 : e2 = e := (Except.error.injEq _ _).mp h2
      rw [← he2]
      exact rewrite_lattice_error_msg env i r e2 hrl
    | ok lat =>
      rw [hrl] at hb
      have h2 : PyCascade.thread env rs lat = .error e := hb
      exact thread_error_msg env rs lat e h2

/-- Helper: any error of `lattice_to_one_top_string` comes from the
rewrite module's error class. -/
theorem one_top_string_error_msg {F W : Type} (env : PyniniEnv F W)
    (lat : F) (token_type : String) (e : PyError)
    (h : PyRewrite.lattice_to_one_top_string env lat token_type
      = .error e) :
    ∃ m, e = PyError.rewriteError m := by
  unfold PyRewrite.lattice_to_one_top_string at h
  cases hp : env.paths lat (some token_type) none with
  | nil =>
    rw [hp] at h
    exact absurd h (by simp)
  | cons p rest =>
    rw [hp] at h
    cases rest with
    | nil => exact absurd h (by simp)
    | cons q rest2 => exact ⟨_, ((Except.error.injEq _ _).mp h.symm)⟩

/-- Helper: a computation of the form `_rewrite_lattice >>= k`, where `k`
can only raise rewrite-module errors, yields the no-rules error exactly
when the rule sequence is empty. -/
theorem cascade_bind_norules_iff {F W B : Type} (env : PyniniEnv F W)
    (c : PyCascade.RuleCascade F) (i : Inp F)
    (k : F → Except PyError B)
    (hk : ∀ lat e, k lat = .error e → ∃ m, e = PyError.rewriteError m) :
    ((PyCascade.rewrite_lattice env c i >>= k)
        = .error (PyError.cascadeError "No rules requested")
      ↔ c.rules = []) := by
  constructor
  · intro h
    by_contra hne
    cases hrl : PyCascade.rewrite_lattice env c i with
    | error e =>
      have he := cascade_rewrite_lattice_error_msg env c i e hne hrl
      rw [hrl] at h
      have h2 : (Except.error e : Except PyError B)
          = .error (PyError.cascadeError "No rules requested") := h
      rw [he] at h2
      simp at h2
    | ok lat =>
      rw [hrl] at h
      have h2 : k lat = .error (PyError.cascadeError "No rules requested") := h
      obtain ⟨m, hm⟩ := hk lat _ h2
      simp at hm
  · intro h
    have hrl : PyCascade.rewrite_lattice env c i
        = .error (PyError.cascadeError "No rules requested") := by
      unfold PyCascade.rewrite_lattice
      rw [h]
    rw [hrl]
    rfl

/-- Helper: `_rewrite_lattice` itself yields the no-rules error exactly
when the rule sequence is empty. -/
theorem cascade_rl_norules_iff {F W : Type} (env : PyniniEnv F W)
    (c : PyCascade.RuleCascade F) (i : Inp F) :
    (PyCascade.rewrite_lattice env c i
        = .error (PyError.cascadeError "No rules requested")
      ↔ c.rules = []) := by
  have hb : PyCascade.rewrite_lattice env c i
      = PyCascade.rewrite_lattice env c i >>= pure := by
    cases PyCascade.rewrite_lattice env c i <;> rfl
  rw [hb]
  exact cascade_bind_norules_iff env c i pure (fun lat e h => nomatch h)

/-!
Claim C7.  The spec equates "the configured rule sequence is empty" with
"before any successful set_rules call"; but `set_rules` with an empty
name sequence succeeds while leaving the sequence empty, after which the
rewrite family still raises the no-rules error.  That gloss is refuted;
the core biconditional (raises exactly when the sequence is empty) is
proved for `_rewrite_lattice` and every rewrite-family method.
-/

/-- C7 (counterexample): `set_rules` with an empty name list succeeds (no
error raised), yet a subsequent cascade rewrite still raises the
no-rules error — so the error does occur after a successful `set_rules`
call, contradicting the claim's equation of "empty sequence" with
"before any successful set_rules call". -/
theorem claim_C7_counterexample :
    (PyCascade.set_rules envPaths cascEx []).1 = none
    ∧ PyCascade.rewrite_lattice envPaths
        (PyCascade.set_rules envPaths cascEx []).2 (Inp.str "a")
      = .error (PyError.cascadeError "No rules requested") :=
  ⟨rfl, rfl⟩

/-- C7 (amended): the cascade's `_rewrite_lattice`, and every
rewrite-family method built on it, raises `NoRulesConfigured` (the error
"No rules requested") if and only if it is invoked while the configured
rule sequence is empty — a state holding before any successful
`set_rules` call, but also after a successful `set_rules` with an empty
name sequence. -/
theorem claim_C7 {F W : Type} (env : PyniniEnv F W)
    (c : PyCascade.RuleCascade F) (istring ostring : Inp F)
    (token_type : String) (state_multiplier nshortest : Nat) :
    (PyCascade.rewrite_lattice env c istring
        = .error (PyError.cascadeError "No rules requested") ↔ c.rules = [])
    ∧ (PyCascade.top_rewrite env c istring token_type
        = .error (PyError.cascadeError "No rules requested") ↔ c.rules = [])
    ∧ (PyCascade.one_top_rewrite env c istring token_type state_multiplier
        = .error (PyError.cascadeError "No rules requested") ↔ c.rules = [])
    ∧ (PyCascade.rewrites env c istring token_type state_multiplier
        = .error (PyError.cascadeError "No rules requested") ↔ c.rules = [])
    ∧ (PyCascade.top_rewrites env c istring nshortest token_type
        = .error (PyError.cascadeError "No rules requested") ↔ c.rules = [])
    ∧ (PyCascade.optimal_rewrites env c istring token_type state_multiplier
        = .error (PyError.cascadeError "No rules requested") ↔ c.rules = [])
    ∧ (PyCascade.matchesCascade env c istring ostring
        = .error (PyError.cascadeError "No rules requested") ↔ c.rules = []) := by
  refine ⟨cascade_rl_norules_iff env c istring, ?_, ?_, ?_, ?_, ?_, ?_⟩
  · exact cascade_bind_norules_iff env c istring
      (fun lattice =>
        pure (PyRewrite.lattice_to_top_string env lattice token_type))
      (fun lat e h => nomatch h)
  · exact cascade_bind_norules_iff env c istring
      (fun lattice => PyRewrite.lattice_to_one_top_string env
        (PyRewrite.lattice_to_dfa env lattice true state_multiplier).1
        token_type)
      (fun lat e h => one_top_string_error_msg env
        (PyRewrite.lattice_to_dfa env lat true state_multiplier).1
        token_type e h)
  · exact cascade_bind_norules_iff env c istring
      (fun lattice => pure (PyRewrite.lattice_to_strings env
        (PyRewrite.lattice_to_dfa env lattice false state_multiplier).1
        token_type))
      (fun lat e h => nomatch h)
  · exact cascade_bind_norules_iff env c istring
      (fun lattice => pure (PyRewrite.lattice_to_strings env
        (PyRewrite.lattice_to_shortest env lattice nshortest) token_type))
      (fun lat e h => nomatch h)
  · exact cascade_bind_norules_iff env c istring
      (fun lattice => pure (PyRewrite.lattice_to_strings env
        (PyRewrite.lattice_to_dfa env lattice true state_multiplier).1
        token_type))
      (fun lat e h => nomatch h)
  · exact cascade_bind_norules_iff env c istring
      (fun lattice => pure (env.matchesOp lattice ostring "alt_sequence"))
      (fun lat e h => nomatch h)

/-- C7 (witness): the amended biconditional applied to an unconfigured
cascade. -/
theorem claim_C7_witness :
    PyCascade.rewrite_lattice envPaths cascEx (Inp.str "a")
      = .error (PyError.cascadeError "No rules requested") :=
  ((claim_C7 envPaths cascEx (Inp.str "a") (Inp.str "p") "byte" 4 1).1).mpr
    rfl

/-- C8 (confirmed): whenever the rule's output lattice for the input
exists (the composition succeeds), `matches` returns — without raising —
exactly the external containment decision on that lattice and the
expected output, taken with the alt_sequence composition filter; in
particular a merely-absent match yields `false`, not an error. -/
theorem claim_C8 {F W : Type} (env : PyniniEnv F W)
    (istring ostring : Inp F) (rule : F) (L : F)
    (C : F → Inp F → Bool)
    (hC : ∀ l o, env.matchesOp l o "alt_sequence" = C l o)
    (hL : PyRewrite.rewrite_lattice env istring rule = .ok L) :
    PyRewrite.matchesRule env istring ostring rule = .ok (C L ostring)
    ∧ (C L ostring = false →
        PyRewrite.matchesRule env istring ostring rule = .ok false) := by
  have h1 : PyRewrite.matchesRule env istring ostring rule
      = .ok (C L ostring) := by
    unfold PyRewrite.matchesRule
    rw [hL]
    show Except.ok (env.matchesOp L ostring "alt_sequence")
        = .ok (C L ostring)
    rw [hC]
  exact ⟨h1, fun hf => by rw [h1, hf]⟩

/-- C8 (witness): the spec's containment scenario — the rule maps "a" to
"p" only; `matches` is `.ok true` for expected output "p" and `.ok false`
(not an error) for "q". -/
theorem claim_C8_witness :
    PyRewrite.matchesRule envOk (Inp.str "a") (Inp.str "p") latP = .ok true
    ∧ PyRewrite.matchesRule envOk (Inp.str "a") (Inp.str "q") latP
      = .ok false := by
  have h1 := (claim_C8 envOk (Inp.str "a") (Inp.str "p") latP latP cmatchFn
    (fun l o => rfl) rfl).1
  have h2 := (claim_C8 envOk (Inp.str "a") (Inp.str "q") latP latP cmatchFn
    (fun l o => rfl) rfl).1
  refine ⟨?_, ?_⟩
  · rw [h1]
    rfl
  · rw [h2]
    rfl

/-- Stability of ordered insertion with respect to a key: filtering the
result at any fixed key value prepends the inserted element exactly when
it has that key, leaving the relative order of the rest unchanged. -/
theorem orderedInsert_filter_key {α : Type} (key : α → Int) (w : Int)
    (a : α) (l : List α) :
    (List.orderedInsert (wle key) a l).filter (fun x => key x == w)
      = if key a == w then a :: l.filter (fun x => key x == w)
        else l.filter (fun x => key x == w) := by
  induction l with
  | nil =>
    by_cases haw : key a = w
    · simp [List.orderedInsert, List.filter, haw]
    · have hf : (key a == w) = false := beq_eq_false_iff_ne.mpr haw
      simp [List.orderedInsert, List.filter, haw, hf]
  | cons b t ih =>
    simp only [List.orderedInsert]
    by_cases hab : wle key a b
    · rw [if_pos hab]
      by_cases haw : key a == w <;> by_cases hbw : key b == w <;>
        simp [List.filter_cons, haw, hbw]
    · rw [if_neg hab]
      by_cases haw : key a == w
      · have hbw : ¬ (key b == w) = true := by
          intro hb
          apply hab
          have h1 : key a = w := beq_iff_eq.mp haw
          have h2 : key b = w := beq_iff_eq.mp hb
          exact le_of_eq (h1.trans h2.symm)
        simp [List.filter_cons, haw, hbw, ih]
      · by_cases hbw : key b == w <;>
          simp [List.filter_cons, haw, hbw, ih]

/-- Stability of insertion sort with respect to a key: the subsequence of
elements with any fixed key value is exactly as in the input. -/
theorem insertionSort_filter_key {α : Type} (key : α → Int) (w : Int)
    (l : List α) :
    (List.insertionSort (wle key) l).filter (fun x => key x == w)
      = l.filter (fun x => key x == w) := by
  induction l with
  | nil => rfl
  | cons a t ih =>
    simp only [List.insertionSort]
    rw [orderedInsert_filter_key]
    by_cases haw : key a == w <;> simp [List.filter_cons, haw, ih]

/-!
Claim C9.  The spec says `lattice_to_strings_and_weights` returns a
sequence of (input labels, output tokens, weight) triples; the code's
final comprehension keeps only `tuple(y.split())`, discarding the input
label sequence and the weight.  That part is refuted (two lattices
differing only in path weight produce identical outputs); the rest —
validate-and-clean-up first, split the output on whitespace, stable sort
ascending by weight — is proved.
-/

/-- C9 (counterexample): the function returns only the whitespace-split
output token sequences: on a one-path lattice with output "p q" it
returns `[["p", "q"]]`, and changing the path weight from 3 to 7 leaves
the result identical, so the claimed weight (and input-label) components
are not part of the return value. -/
theorem claim_C9_counterexample :
    PyRewrite.lattice_to_strings_and_weights envPaths latA "byte" "byte"
      = .ok [["p", "q"]]
    ∧ PyRewrite.lattice_to_strings_and_weights envPaths latB "byte" "byte"
      = PyRewrite.lattice_to_strings_and_weights envPaths latA "byte" "byte"
    ∧ (envPaths.paths (envPaths.rmepsilon (envPaths.projectOutput latA))
          none (some "byte")).map (fun p => p.2.2)
      ≠ (envPaths.paths (envPaths.rmepsilon (envPaths.projectOutput latB))
          none (some "byte")).map (fun p => p.2.2) := by
  refine ⟨?_, ?_, ?_⟩
  · rfl
  · rfl
  · decide

/-- C9 (amended): `lattice_to_strings_and_weights` first applies the
non-emptiness check and cleanup (raising the composition-failure error on
a lattice with no start state, and otherwise working on the
output-projected, epsilon-removed lattice); it returns, for each path,
only the output token sequence split on whitespace — not the full
(input, output, weight) triple — with the paths arranged ascending by
the numeric weight key, ties preserving enumeration order (stable
sort). -/
theorem claim_C9 {F W : Type} (env : PyniniEnv F W) (lattice : F)
    (input_token_type output_token_type : String) :
    ((env.start lattice).isNone →
      PyRewrite.lattice_to_strings_and_weights env lattice
          input_token_type output_token_type
        = .error (PyError.rewriteError "Composition failure"))
    ∧ (¬ (env.start lattice).isNone →
        ∃ sorted_arpa,
          PyRewrite.lattice_to_strings_and_weights env lattice
              input_token_type output_token_type
            = .ok (sorted_arpa.map (fun p => pySplit p.2.1))
          ∧ sorted_arpa.Perm
              (env.paths (env.rmepsilon (env.projectOutput lattice)) none
                (some output_token_type))
          ∧ List.Sorted (wle (PyRewrite.pathKey env)) sorted_arpa
          ∧ ∀ w : Int,
              sorted_arpa.filter (fun p => PyRewrite.pathKey env p == w)
                = (env.paths (env.rmepsilon (env.projectOutput lattice))
                    none (some output_token_type)).filter
                    (fun p => PyRewrite.pathKey env p == w)) := by
  constructor
  · intro h
    simp [PyRewrite.lattice_to_strings_and_weights,
      PyRewrite.check_nonempty_and_cleanup, h]
  · intro h
    refine ⟨List.insertionSort (wle (PyRewrite.pathKey env))
        (env.paths (env.rmepsilon (env.projectOutput lattice)) none
          (some output_token_type)), ?_, ?_, ?_, ?_⟩
    · simp [PyRewrite.lattice_to_strings_and_weights,
        PyRewrite.check_nonempty_and_cleanup, h]
    · exact List.perm_insertionSort _ _
    · exact List.sorted_insertionSort _ _
    · intro w
      exact insertionSort_filter_key (PyRewrite.pathKey env) w _

/-- C9 (witness): the amended theorem applied at a failing lattice and at
a concrete two-path lattice. -/
theorem claim_C9_witness :
    PyRewrite.lattice_to_strings_and_weights envPaths emptyFst "byte" "byte"
      = .error (PyError.rewriteError "Composition failure")
    ∧ ∃ sorted_arpa,
        PyRewrite.lattice_to_strings_and_weights envPaths latTie "byte" "byte"
          = .ok (sorted_arpa.map (fun p => pySplit p.2.1))
        ∧ sorted_arpa.Perm
            (envPaths.paths (envPaths.rmepsilon (envPaths.projectOutput latTie))
              none (some "byte"))
        ∧ List.Sorted (wle (PyRewrite.pathKey envPaths)) sorted_arpa
        ∧ ∀ w : Int,
            sorted_arpa.filter (fun p => PyRewrite.pathKey envPaths p == w)
              = (envPaths.paths (envPaths.rmepsilon (envPaths.projectOutput latTie))
                  none (some "byte")).filter
                  (fun p => PyRewrite.pathKey envPaths p == w) :=
  ⟨(claim_C9 envPaths emptyFst "byte" "byte").1 rfl,
    (claim_C9 envPaths latTie "byte" "byte").2 (by decide)⟩
